import Mathlib

/-
Verification of the RuGram SFU call-orchestration core.

Server model: shallow embedding of the socket handlers in src/server.js
(joinRoom, leaveRoom, createWebRtcTransport, produce, consume, resume,
disconnect).  JS `Map`s are modelled as association lists with string keys;
`Map.set` replaces the first binding in place or appends, `Map.delete`
removes the binding.  Asynchronous SFU calls (router.canConsume,
transport.produce, ...) are modelled by boolean/string parameters standing
for the SFU's reply.

Client model: shallow embedding of the React client in src/index.tsx
(getMediaStream, the consume-side stream compositor, handleProducerClosed,
cleanUp, the incoming-call handler).  React state setters become explicit
state passing; imperative side effects (stopping a track, closing a
transport, cancelling an animation frame) are collected in an effect list.
-/

namespace RuGram

/-! ## Association-list helpers (JS `Map` semantics) -/

def alookup {β : Type} (k : String) : List (String × β) → Option β
  | [] => none
  | (k', v) :: rest => if k' = k then some v else alookup k rest

def aset {β : Type} (k : String) (v : β) : List (String × β) → List (String × β)
  | [] => [(k, v)]
  | (k', v') :: rest => if k' = k then (k, v) :: rest else (k', v') :: aset k v rest

def aerase {β : Type} (k : String) : List (String × β) → List (String × β)
  | [] => []
  | (k', v') :: rest => if k' = k then aerase k rest else (k', v') :: aerase k rest

def eraseAll {β : Type} (ks : List String) (l : List (String × β)) : List (String × β) :=
  ks.foldl (fun acc k => aerase k acc) l

/-! ## Server data model (src/server.js) -/

structure SProducer where
  id : String
  kind : String
  mediaType : String
  closed : Bool
deriving DecidableEq, Repr

structure STransport where
  id : String
  isSender : Bool
  closed : Bool
deriving DecidableEq, Repr

structure SConsumer where
  id : String
  producerId : String
  transportId : String
  kind : String
  paused : Bool
deriving DecidableEq, Repr

structure SPeer where
  transports : List (String × STransport)
  producers : List (String × SProducer)
  consumers : List (String × SConsumer)
deriving DecidableEq, Repr

structure SRoom where
  peers : List (String × SPeer)
deriving DecidableEq, Repr

structure ServerState where
  rooms : List (String × SRoom)
deriving DecidableEq, Repr

/-- An `existingProducers` snapshot entry handed to a joining peer. -/
structure PInfo where
  id : String
  mediaType : String
  peerId : String
deriving DecidableEq, Repr

/-- Events the server broadcasts to the rest of the room. -/
inductive SEvent where
  | newProducer (producerId mediaType peerId : String)
  | producerClosed (producerId : String)
deriving DecidableEq, Repr

/-- Reply shape of the `consume` handler callback. -/
inductive ConsumeReply where
  | err (msg : String)
  | ok (id producerId kind : String)
deriving DecidableEq, Repr

/-- `createRoom` in src/server.js: create the room with an empty peer map
unless it already exists (router creation is the SFU's side). -/
def createRoomH (s : ServerState) (roomName : String) : ServerState :=
  match alookup roomName s.rooms with
  | some _ => s
  | none => ⟨aset roomName ⟨[]⟩ s.rooms⟩

/-- `socket.on('joinRoom')` in src/server.js: if the room does not exist the
handler just returns — the callback is never invoked (reply `none`).
Otherwise it collects every producer currently registered to the peers in
the room, then registers an empty peer session for the joiner and replies
with the snapshot. -/
def joinRoomH (s : ServerState) (roomName peerId : String) :
    ServerState × Option (List PInfo) :=
  match alookup roomName s.rooms with
  | none => (s, none)
  | some room =>
    let existingProducers :=
      room.peers.flatMap (fun e =>
        e.2.producers.map (fun pe => PInfo.mk pe.2.id pe.2.mediaType e.1))
    let peer : SPeer := ⟨[], [], []⟩
    (⟨aset roomName ⟨aset peerId peer room.peers⟩ s.rooms⟩, some existingProducers)

/-- `socket.on('leaveRoom')` in src/server.js: a soft leave.  Closes each of
the peer's producers and broadcasts one `producer-closed` per producer to
the rest of the room; the peer session itself, its transports and its
consumers are untouched and the room is never deleted. -/
def leaveRoomH (s : ServerState) (roomName peerId : String) :
    ServerState × List SEvent :=
  match alookup roomName s.rooms with
  | none => (s, [])
  | some room =>
    match alookup peerId room.peers with
    | none => (s, [])
    | some peer =>
      let producers := peer.producers.map (fun pe => (pe.1, { pe.2 with closed := true }))
      let events := peer.producers.map (fun pe => SEvent.producerClosed pe.2.id)
      (⟨aset roomName ⟨aset peerId { peer with producers := producers } room.peers⟩ s.rooms⟩,
       events)

/-- `socket.on('createWebRtcTransport')` in src/server.js: creates a
transport tagged with `appData.isSender` and registers it to the peer.
`newId` stands for the SFU-assigned transport id.  (When the peer never
joined, the source would crash on `peer.transports`; modelled as a no-op
reply-less failure.) -/
def createTransportH (s : ServerState) (roomName peerId : String)
    (isSender : Bool) (newId : String) : ServerState × Option String :=
  match alookup roomName s.rooms with
  | none => (s, none)
  | some room =>
    match alookup peerId room.peers with
    | none => (s, none)
    | some peer =>
      (⟨aset roomName
          ⟨aset peerId
            { peer with transports := aset newId ⟨newId, isSender, false⟩ peer.transports }
            room.peers⟩ s.rooms⟩,
       some newId)

/-- `socket.on('produce')` in src/server.js: looks the transport up in the
requesting peer's own transport map — with no direction check — then creates
the producer, registers it, broadcasts `new-producer` to the rest of the
room and replies with the id.  On a failed lookup the handler just returns:
no reply, no producer, no broadcast.  `newId` stands for the SFU-assigned
producer id. -/
def produceH (s : ServerState) (roomName peerId transportId kind mediaType newId : String) :
    ServerState × Option String × List SEvent :=
  match alookup roomName s.rooms with
  | none => (s, none, [])
  | some room =>
    match alookup peerId room.peers with
    | none => (s, none, [])
    | some peer =>
      match alookup transportId peer.transports with
      | none => (s, none, [])
      | some _ =>
        let producer : SProducer := ⟨newId, kind, mediaType, false⟩
        (⟨aset roomName
            ⟨aset peerId { peer with producers := aset newId producer peer.producers }
              room.peers⟩ s.rooms⟩,
         some newId,
         [SEvent.newProducer newId mediaType peerId])

/-- `socket.on('consume')` in src/server.js.  `canCons` stands for the
SFU's `router.canConsume` verdict and `cKind` for the kind of the consumer
the SFU creates.  Error strings are the literal callback payloads of the
source.  The recv transport is found by scanning the peer's transports for
one whose `isSender` tag is not `true`; the consumer is created bound to it
and paused. -/
def consumeH (s : ServerState) (roomName peerId producerId : String)
    (canCons : Bool) (cKind newId : String) : ServerState × ConsumeReply :=
  match alookup roomName s.rooms with
  | none => (s, ConsumeReply.err "Cannot consume")
  | some room =>
    if canCons = false then (s, ConsumeReply.err "Cannot consume")
    else
      match alookup peerId room.peers with
      | none => (s, ConsumeReply.err "Peer not found")
      | some peer =>
        match peer.transports.find? (fun te => !te.2.isSender) with
        | none => (s, ConsumeReply.err "No recv transport found")
        | some te =>
          let consumer : SConsumer := ⟨newId, producerId, te.2.id, cKind, true⟩
          (⟨aset roomName
              ⟨aset peerId { peer with consumers := aset newId consumer peer.consumers }
                room.peers⟩ s.rooms⟩,
           ConsumeReply.ok newId producerId cKind)

/-- `socket.on('resume')` in src/server.js: looks up the consumer in the
requesting peer's own consumer map and resumes it; silently does nothing
when it no longer exists. -/
def resumeH (s : ServerState) (roomName peerId consumerId : String) : ServerState :=
  match alookup roomName s.rooms with
  | none => s
  | some room =>
    match alookup peerId room.peers with
    | none => s
    | some peer =>
      match alookup consumerId peer.consumers with
      | none => s
      | some c =>
        ⟨aset roomName
          ⟨aset peerId { peer with consumers := aset consumerId { c with paused := false } peer.consumers }
            room.peers⟩ s.rooms⟩

/-- `socket.on('disconnect')` in src/server.js: closes every producer of the
peer (broadcasting one `producer-closed` each), closes its transports,
removes the peer session, and — when the peer map became empty — closes the
room's router and deletes the room.  The returned boolean records whether
the router was closed (the room deleted). -/
def disconnectH (s : ServerState) (roomName peerId : String) :
    ServerState × List SEvent × Bool :=
  match alookup roomName s.rooms with
  | none => (s, [], false)
  | some room =>
    match alookup peerId room.peers with
    | none => (s, [], false)
    | some peer =>
      let events := peer.producers.map (fun pe => SEvent.producerClosed pe.2.id)
      let peers := aerase peerId room.peers
      if peers = [] then
        (⟨aerase roomName s.rooms⟩, events, true)
      else
        (⟨aset roomName ⟨peers⟩ s.rooms⟩, events, false)

/-- One registry operation, as received over the socket.  The room name is
the socket's `currentRoomName` at the moment the event fires. -/
inductive Op where
  | createRoom (roomName : String)
  | join (roomName peerId : String)
  | leave (roomName peerId : String)
  | createTransport (roomName peerId : String) (isSender : Bool) (newId : String)
  | produce (roomName peerId transportId kind mediaType newId : String)
  | consume (roomName peerId producerId : String) (canCons : Bool) (cKind newId : String)
  | resume (roomName peerId consumerId : String)
  | disconnect (roomName peerId : String)
deriving DecidableEq, Repr

/-- State effect of one registry operation. -/
def applyOp (s : ServerState) : Op → ServerState
  | Op.createRoom r => createRoomH s r
  | Op.join r p => (joinRoomH s r p).1
  | Op.leave r p => (leaveRoomH s r p).1
  | Op.createTransport r p b nid => (createTransportH s r p b nid).1
  | Op.produce r p t k m nid => (produceH s r p t k m nid).1
  | Op.consume r p pid cc ck nid => (consumeH s r p pid cc ck nid).1
  | Op.resume r p cid => resumeH s r p cid
  | Op.disconnect r p => (disconnectH s r p).1

/-- Number of peer sessions a room currently holds (0 when the room does
not exist). -/
def roomPeerCount (s : ServerState) (roomName : String) : Nat :=
  match alookup roomName s.rooms with
  | none => 0
  | some room => room.peers.length

/-! ## Client data model (src/index.tsx) -/

inductive TKind where
  | audio
  | video
deriving DecidableEq, Repr

/-- A `MediaStreamTrack`: the identity and the kind are all the client
logic inspects. -/
structure Track where
  id : String
  kind : TKind
deriving DecidableEq, Repr

/-- A `MediaStream` as handed around by the client. -/
structure MStream where
  tracks : List Track
deriving DecidableEq, Repr

/-- `RemotePeerData` in src/index.tsx. -/
structure RemotePeerData where
  stream : Option (List Track)
  videoProducerId : Option String
  audioProducerId : Option String
deriving DecidableEq, Repr

/-- A client-side `Consumer` handle, keyed by producer id in the consumers
map. -/
structure CConsumer where
  id : String
  track : Track
deriving DecidableEq, Repr

/-- `AnalysisData` in src/index.tsx (the audio-graph nodes are opaque; the
loop handle and the cloned track are what teardown touches). -/
structure AnalysisData where
  animationFrameId : Nat
  clonedTrackId : String
deriving DecidableEq, Repr

/-- `CallState` in src/index.tsx: `idle | calling | receiving | in-call`. -/
inductive CallSt where
  | idle
  | calling
  | receiving
  | inCall
deriving DecidableEq, Repr

/-- `IncomingCallData` in src/index.tsx. -/
structure IncomingCall where
  fromId : String
  callType : String
deriving DecidableEq, Repr

/-- The client's call-session state: React state plus the long-lived refs. -/
structure ClientState where
  callState : CallSt
  incomingCallData : Option IncomingCall
  localStream : Option (List Track)
  consumers : List (String × CConsumer)
  remotePeers : List (String × RemotePeerData)
  speakingStates : List (String × Bool)
  messages : List (String × String)
  analysisRefs : List (String × AnalysisData)
  audioContextClosed : Option Bool
  sendTransport : Option String
  recvTransport : Option String
  currentRoomName : Option String
  deviceLoaded : Bool
  myId : Option String
deriving DecidableEq, Repr

/-- Imperative side effects the client performs on browser objects. -/
inductive CEffect where
  | cancelAnimation (frameId : Nat)
  | stopTrack (trackId : String)
  | closeAudioContext
  | closeTransport (transportId : String)
  | closeConsumer (consumerId : String)
deriving DecidableEq, Repr

/-- Messages the client emits on the signaling socket. -/
inductive ClientMsg where
  | callPeer (toId callType : String)
  | callAccepted (toId callType : String)
  | callDeclined (toId : String)
  | leaveRoomMsg
deriving DecidableEq, Repr

/-- `stopAudioAnalysis(id)` in src/index.tsx: cancel the loop, stop the
cloned track, drop the analysis entry, and delete the id from the speaking
map (the speaking update returns the map unchanged when the id is absent). -/
def stopAudioAnalysis (s : ClientState) (id : String) : ClientState × List CEffect :=
  match alookup id s.analysisRefs with
  | some a =>
    ({ s with
        analysisRefs := aerase id s.analysisRefs,
        speakingStates :=
          if (alookup id s.speakingStates).isSome then aerase id s.speakingStates
          else s.speakingStates },
     [CEffect.cancelAnimation a.animationFrameId, CEffect.stopTrack a.clonedTrackId])
  | none =>
    ({ s with
        speakingStates :=
          if (alookup id s.speakingStates).isSome then aerase id s.speakingStates
          else s.speakingStates },
     [])

/-- The `analysisRefs.current.forEach((_, id) => stopAudioAnalysis(id))`
iteration inside `cleanUp`. -/
def stopEach : List String → ClientState × List CEffect → ClientState × List CEffect
  | [], acc => acc
  | k :: rest, acc =>
    let r := stopAudioAnalysis acc.1 k
    stopEach rest (r.1, acc.2 ++ r.2)

/-- The `if (audioContextRef.current && audioContextRef.current.state !==
'closed')` block of `cleanUp`: close the audio context and null the ref
when it exists and is not already closed. -/
def closeAudioContextStep (z : ClientState × List CEffect) : ClientState × List CEffect :=
  match z.1.audioContextClosed with
  | some b =>
    if b then z
    else ({ z.1 with audioContextClosed := none }, z.2 ++ [CEffect.closeAudioContext])
  | none => z

/-- The first half of `cleanUp` in src/index.tsx: stop the analysis loop of
the local id, then every remaining analysis loop, then close the audio
context if it is open. -/
def cleanUpCore (s : ClientState) : ClientState × List CEffect :=
  let r1 := stopAudioAnalysis s (s.myId.getD "local")
  let r2 := stopEach (r1.1.analysisRefs.map Prod.fst) r1
  closeAudioContextStep r2

/-- `cleanUp` in src/index.tsx: stop the local analysis loop, stop every
remaining analysis loop, close the audio context if it is open, stop every
local track, close both transports, and reset every map and ref. -/
def cleanUp (s : ClientState) : ClientState × List CEffect :=
  let r3 := cleanUpCore s
  let trackEffects := (r3.1.localStream.getD []).map (fun t => CEffect.stopTrack t.id)
  let sendEffects :=
    match r3.1.sendTransport with
    | some tid => [CEffect.closeTransport tid]
    | none => []
  let recvEffects :=
    match r3.1.recvTransport with
    | some tid => [CEffect.closeTransport tid]
    | none => []
  ({ r3.1 with
      callState := CallSt.idle,
      incomingCallData := none,
      localStream := none,
      remotePeers := [],
      consumers := [],
      speakingStates := [],
      messages := [],
      currentRoomName := none,
      deviceLoaded := false,
      sendTransport := none,
      recvTransport := none },
   r3.2 ++ trackEffects ++ sendEffects ++ recvEffects)

/-- The `setRemotePeers` updater inside the client `consume` callback in
src/index.tsx: drop every existing track of the incoming track's kind from
the peer's composite stream, append the new track, and record the producer
id under its media type. -/
def attachRemoteTrack (peers : List (String × RemotePeerData))
    (peerId producerId : String) (mediaType : TKind) (track : Track) :
    List (String × RemotePeerData) :=
  let oldData := alookup peerId peers
  let existingTracks := ((oldData.bind (fun d => d.stream)).getD []).filter
    (fun t => t.kind ≠ track.kind)
  let newStream := existingTracks ++ [track]
  let newData : RemotePeerData :=
    { stream := some newStream,
      videoProducerId :=
        if mediaType = TKind.video then some producerId
        else oldData.bind (fun d => d.videoProducerId),
      audioProducerId :=
        if mediaType = TKind.audio then some producerId
        else oldData.bind (fun d => d.audioProducerId) }
  aset peerId newData peers

/-- One remote-track attachment, as performed when a `consume` callback
lands. -/
structure AttachOp where
  peerId : String
  producerId : String
  mediaType : TKind
  track : Track
deriving DecidableEq, Repr

def applyAttaches (peers : List (String × RemotePeerData)) (ops : List AttachOp) :
    List (String × RemotePeerData) :=
  ops.foldl (fun acc a => attachRemoteTrack acc a.peerId a.producerId a.mediaType a.track) peers

/-- Number of tracks of a kind in a composite stream. -/
def kindCount (ts : List Track) (k : TKind) : Nat :=
  (ts.filter (fun t => t.kind = k)).length

/-- The stream-compositor invariant: every remote peer's composite stream
holds at most one audio and at most one video track. -/
def StreamInv (peers : List (String × RemotePeerData)) : Prop :=
  ∀ p d ts, alookup p peers = some d → d.stream = some ts →
    kindCount ts TKind.audio ≤ 1 ∧ kindCount ts TKind.video ≤ 1

/-- The for-loop in `handleProducerClosed` that finds the peer owning the
closed producer: the first entry whose video or audio producer id matches. -/
def findOwner (peers : List (String × RemotePeerData)) (producerId : String) :
    Option (String × RemotePeerData) :=
  peers.find? (fun e =>
    e.2.videoProducerId = some producerId || e.2.audioProducerId = some producerId)

/-- `handleProducerClosed` in src/index.tsx: close and drop the consumer
keyed by the producer id, then update the remote-peer map: find the owning
peer, remove the first track of the closed producer's kind from its stream,
null the matching producer-id field, and — when no track remains, or the
stream/track could not be found — stop that peer's audio analysis and
delete the peer entry entirely. -/
def handleProducerClosed (s : ClientState) (producerId : String) :
    ClientState × List CEffect :=
  let cr :=
    match alookup producerId s.consumers with
    | some c =>
      ({ s with consumers := aerase producerId s.consumers }, [CEffect.closeConsumer c.id])
    | none => (s, ([] : List CEffect))
  let s0 := cr.1
  match findOwner s0.remotePeers producerId with
  | none => (s0, cr.2)
  | some (q, oldData) =>
    let isVideo := oldData.videoProducerId = some producerId
    match oldData.stream with
    | some ts =>
      match ts.find? (fun t => t.kind = (if isVideo then TKind.video else TKind.audio)) with
      | some trackToRemove =>
        let remainingTracks := ts.filter (fun t => t.id ≠ trackToRemove.id)
        if remainingTracks.isEmpty then
          let r := stopAudioAnalysis s0 q
          ({ r.1 with remotePeers := aerase q r.1.remotePeers }, cr.2 ++ r.2)
        else
          let newData :=
            if isVideo then
              { oldData with stream := some remainingTracks, videoProducerId := none }
            else
              { oldData with stream := some remainingTracks, audioProducerId := none }
          let r := if isVideo then (s0, ([] : List CEffect)) else stopAudioAnalysis s0 q
          ({ r.1 with remotePeers := aset q newData r.1.remotePeers }, cr.2 ++ r.2)
      | none =>
        let r := stopAudioAnalysis s0 q
        ({ r.1 with remotePeers := aerase q r.1.remotePeers }, cr.2 ++ r.2)
    | none =>
      let r := stopAudioAnalysis s0 q
      ({ r.1 with remotePeers := aerase q r.1.remotePeers }, cr.2 ++ r.2)

/-- The `socket.on('incoming-call')` handler in src/index.tsx: when the
call state is not idle the offer is ignored outright (the handler returns
without emitting anything); otherwise the offer is stored and the state
moves to `receiving`. -/
def onIncomingCall (s : ClientState) (data : IncomingCall) :
    ClientState × List ClientMsg :=
  if s.callState ≠ CallSt.idle then (s, [])
  else ({ s with incomingCallData := some data, callState := CallSt.receiving }, [])

/-- `handleDeclineCall` in src/index.tsx: only fires on the user's decline
button; emits `call-declined` to the stored offerer and returns to idle. -/
def handleDeclineCall (s : ClientState) : ClientState × List ClientMsg :=
  match s.incomingCallData with
  | none => (s, [])
  | some d =>
    ({ s with callState := CallSt.idle, incomingCallData := none },
     [ClientMsg.callDeclined d.fromId])

/-! ## Media acquisition (getMediaStream in src/index.tsx) -/

/-- The three error names on which the preset loop advances to the next
preset (`err.name` checks in `getMediaStream`). -/
def retryableName (n : String) : Bool :=
  n == "OverconstrainedError" || n == "NotFoundError" || n == "NotReadableError"

/-- Length of `videoConstraintsPresets` in src/index.tsx (ideal 720p,
relaxed 480p, camera-only facingMode, bare `true`). -/
def numPresets : Nat := 4

/-- The browser environment: what `getUserMedia` answers for the i-th
video+audio preset attempt, and for the audio-only request.  Errors are
represented by their `err.name` string. -/
structure GUMEnv where
  videoAttempt : Nat → Except String MStream
  audioAttempt : Except String MStream

/-- The preset loop of `getMediaStream`: starting at preset `i` with `n`
presets left, returns the stream on the first success, the last error seen,
and the number of attempts actually made.  It advances past a failure only
when the error name is retryable and stops immediately otherwise. -/
def tryPresetsAux (env : GUMEnv) (i : Nat) : Nat → Option MStream × Option String × Nat
  | 0 => (none, none, 0)
  | n + 1 =>
    match env.videoAttempt i with
    | Except.ok str => (some str, none, 1)
    | Except.error e =>
      if retryableName e then
        let r := tryPresetsAux env (i + 1) n
        (r.1, some (r.2.1.getD e), r.2.2 + 1)
      else (none, some e, 1)

/-- `getMediaStream(prefersVideo)` in src/index.tsx.  Returns the stream
plus the `videoEnabled` flag; a thrown error is the `Except.error` case.
With video requested, the presets are tried in order; if none succeeds the
function falls back to an audio-only request, and only when that also fails
does it throw (the last video error, or the audio error). -/
def getMediaStream (env : GUMEnv) (prefersVideo : Bool) :
    Except String (MStream × Bool) :=
  if prefersVideo = false then
    match env.audioAttempt with
    | Except.ok str => Except.ok (str, false)
    | Except.error e => Except.error e
  else
    match tryPresetsAux env 0 numPresets with
    | (some str, _, _) => Except.ok (str, true)
    | (none, lastErr, _) =>
      match env.audioAttempt with
      | Except.ok str => Except.ok (str, false)
      | Except.error ae => Except.error (lastErr.getD ae)

/-- Number of video presets `getMediaStream` actually attempts. -/
def videoAttemptCount (env : GUMEnv) : Nat :=
  (tryPresetsAux env 0 numPresets).2.2

/-! ## Concrete example states -/

/-- A peer owning a single recv transport (`isSender = false`). -/
def recvOnlyPeer : SPeer := ⟨[("t1", ⟨"t1", false, false⟩)], [], []⟩

/-- Registry with room `r` holding peer `A`, who owns only a recv
transport. -/
def recvOnlyState : ServerState := ⟨[("r", ⟨[("A", recvOnlyPeer)]⟩)]⟩

/-- A peer whose only producer has already been closed by a soft leave. -/
def closedProducerPeer : SPeer := ⟨[], [("pr1", ⟨"pr1", "video", "video", true⟩)], []⟩

/-- Registry with room `r` holding peer `A` with one closed producer. -/
def closedProducerState : ServerState := ⟨[("r", ⟨[("A", closedProducerPeer)]⟩)]⟩

/-- Registry with room `r` holding exactly one (empty) peer session `A`. -/
def oneRoomOnePeer : ServerState := ⟨[("r", ⟨[("A", ⟨[], [], []⟩)]⟩)]⟩

/-- A peer session with one send transport, one live producer and one
paused consumer. -/
def peerA : SPeer :=
  ⟨[("t1", ⟨"t1", true, false⟩)],
   [("pr1", ⟨"pr1", "audio", "audio", false⟩)],
   [("c1", ⟨"c1", "prx", "t1", "audio", true⟩)]⟩

/-- A room holding peer sessions `A` (as `peerA`) and `B` (empty). -/
def roomAB : SRoom := ⟨[("A", peerA), ("B", ⟨[], [], []⟩)]⟩

/-- Registry with the single room `r` holding `A` and `B`. -/
def twoPeerState : ServerState := ⟨[("r", roomAB)]⟩

/-- Two successive audio-track attachments for the same peer `B`. -/
def attachTwice : List AttachOp :=
  [⟨"B", "p1", TKind.audio, ⟨"ta1", TKind.audio⟩⟩,
   ⟨"B", "p2", TKind.audio, ⟨"ta2", TKind.audio⟩⟩]

/-- A client currently placing an outgoing call (not idle). -/
def busyClient : ClientState :=
  ⟨CallSt.calling, none, none, [], [], [], [], [], none, none, none, none, false, some "me"⟩

/-- A client in a call with one remote peer `B` contributing an audio-only
stream through producer `p1`, consumed by consumer `c1`. -/
def inCallClient : ClientState :=
  ⟨CallSt.inCall, none, some [⟨"lt1", TKind.audio⟩],
   [("p1", ⟨"c1", ⟨"rt1", TKind.audio⟩⟩)],
   [("B", ⟨some [⟨"rt1", TKind.audio⟩], none, some "p1"⟩)],
   [("B", true)],
   [],
   [("B", ⟨7, "clone1"⟩)],
   some false, some "st1", some "rt-trans", some "room1", true, some "me"⟩

/-- A browser environment where every camera request is denied
(`NotAllowedError`) but the microphone is available. -/
def deniedCameraEnv : GUMEnv :=
  ⟨fun _ => Except.error "NotAllowedError", Except.ok ⟨[⟨"mic", TKind.audio⟩]⟩⟩

end RuGram

namespace RuGram

/-! ## Association-list lemmas -/

theorem alookup_aset_self {β : Type} (k : String) (v : β) (l : List (String × β)) :
    alookup k (aset k v l) = some v := by
  induction l with
  | nil => simp [aset, alookup]
  | cons e rest ih =>
    obtain ⟨k', v'⟩ := e
    by_cases h : k' = k
    · simp [aset, h, alookup]
    · simp [aset, h, alookup, ih]

theorem alookup_aset_ne {β : Type} {k k' : String} (v : β) (l : List (String × β))
    (h : k' ≠ k) : alookup k (aset k' v l) = alookup k l := by
  induction l with
  | nil => simp [aset, alookup, h]
  | cons e rest ih =>
    obtain ⟨k'', v''⟩ := e
    by_cases h2 : k'' = k'
    · simp [aset, h2, alookup, h]
    · simp [aset, h2, alookup, ih]

theorem alookup_aerase_self {β : Type} (k : String) (l : List (String × β)) :
    alookup k (aerase k l) = none := by
  induction l with
  | nil => simp [aerase, alookup]
  | cons e rest ih =>
    obtain ⟨k', v'⟩ := e
    by_cases h : k' = k
    · simp [aerase, h, ih]
    · simp [aerase, h, alookup, ih]

theorem alookup_aerase_ne {β : Type} {k k' : String} (l : List (String × β))
    (h : k' ≠ k) : alookup k (aerase k' l) = alookup k l := by
  induction l with
  | nil => simp [aerase]
  | cons e rest ih =>
    obtain ⟨k'', v''⟩ := e
    by_cases h2 : k'' = k'
    · have h3 : k'' ≠ k := by rw [h2]; exact h
      simp [aerase, h2, alookup, ih, h3, h]
    · simp [aerase, h2, alookup, ih]

theorem aerase_of_alookup_none {β : Type} {k : String} {l : List (String × β)}
    (h : alookup k l = none) : aerase k l = l := by
  induction l with
  | nil => simp [aerase]
  | cons e rest ih =>
    obtain ⟨k', v'⟩ := e
    by_cases h2 : k' = k
    · simp [alookup, h2] at h
    · simp [alookup, h2] at h
      simp [aerase, h2, ih h]

theorem alookup_none_iff {β : Type} {k : String} {l : List (String × β)} :
    alookup k l = none ↔ ∀ e ∈ l, e.1 ≠ k := by
  induction l with
  | nil => simp [alookup]
  | cons e rest ih =>
    obtain ⟨k', v'⟩ := e
    by_cases h : k' = k
    · simp [alookup, h]
    · simp [alookup, h, ih]

theorem mem_aerase_key {β : Type} {k : String} {l : List (String × β)} {e : String × β}
    (h : e ∈ aerase k l) : e ∈ l ∧ e.1 ≠ k := by
  induction l with
  | nil => simp [aerase] at h
  | cons e' rest ih =>
    obtain ⟨k', v'⟩ := e'
    by_cases h2 : k' = k
    · simp only [aerase, if_pos h2] at h
      exact ⟨List.mem_cons_of_mem _ (ih h).1, (ih h).2⟩
    · simp only [aerase, if_neg h2] at h
      rcases List.mem_cons.mp h with h3 | h3
      · subst h3; exact ⟨List.mem_cons_self _ _, h2⟩
      · exact ⟨List.mem_cons_of_mem _ (ih h3).1, (ih h3).2⟩

theorem length_aerase_of_nodup {β : Type} {k : String} {l : List (String × β)}
    (hnd : (l.map Prod.fst).Nodup) (h : (alookup k l).isSome) :
    (aerase k l).length + 1 = l.length := by
  induction l with
  | nil => simp [alookup] at h
  | cons e rest ih =>
    obtain ⟨k', v'⟩ := e
    simp only [List.map_cons, List.nodup_cons] at hnd
    by_cases h2 : k' = k
    · subst h2
      have hnone : alookup k' rest = none := by
        rw [alookup_none_iff]
        intro e he hek
        exact hnd.1 (hek ▸ (List.mem_map_of_mem Prod.fst he))
      simp [aerase, aerase_of_alookup_none hnone]
    · simp only [alookup, if_neg h2] at h
      simp [aerase, h2, ih hnd.2 h]

theorem alookup_aset_ne_none {β : Type} {k : String} {v' : β} (k' : String) (v : β)
    (l : List (String × β)) (h : alookup k l = some v') :
    alookup k (aset k' v l) ≠ none := by
  by_cases hk : k' = k
  · subst hk; simp [alookup_aset_self]
  · rw [alookup_aset_ne v l hk, h]; simp

/-! ## Room-lookup preservation of each handler -/

theorem createRoomH_keeps (s : ServerState) (n r : String) (room : SRoom)
    (hr : alookup r s.rooms = some room) :
    alookup r (createRoomH s n).rooms ≠ none := by
  unfold createRoomH
  cases h1 : alookup n s.rooms with
  | some room' => simp [hr]
  | none => exact alookup_aset_ne_none n ⟨[]⟩ s.rooms hr

theorem joinRoomH_keeps (s : ServerState) (n p r : String) (room : SRoom)
    (hr : alookup r s.rooms = some room) :
    alookup r (joinRoomH s n p).1.rooms ≠ none := by
  unfold joinRoomH
  cases h1 : alookup n s.rooms with
  | none => simp [hr]
  | some room' => exact alookup_aset_ne_none n _ s.rooms hr

theorem leaveRoomH_keeps (s : ServerState) (n p r : String) (room : SRoom)
    (hr : alookup r s.rooms = some room) :
    alookup r (leaveRoomH s n p).1.rooms ≠ none := by
  unfold leaveRoomH
  cases h1 : alookup n s.rooms with
  | none => simp [hr]
  | some room' =>
    cases h2 : alookup p room'.peers with
    | none => simp [h2, hr]
    | some peer =>
      simp only [h2]
      exact alookup_aset_ne_none n _ s.rooms hr

theorem createTransportH_keeps (s : ServerState) (n p : String) (b : Bool)
    (nid r : String) (room : SRoom) (hr : alookup r s.rooms = some room) :
    alookup r (createTransportH s n p b nid).1.rooms ≠ none := by
  unfold createTransportH
  cases h1 : alookup n s.rooms with
  | none => simp [hr]
  | some room' =>
    cases h2 : alookup p room'.peers with
    | none => simp [h2, hr]
    | some peer =>
      simp only [h2]
      exact alookup_aset_ne_none n _ s.rooms hr

theorem produceH_keeps (s : ServerState) (n p t k m nid r : String) (room : SRoom)
    (hr : alookup r s.rooms = some room) :
    alookup r (produceH s n p t k m nid).1.rooms ≠ none := by
  unfold produceH
  cases h1 : alookup n s.rooms with
  | none => simp [hr]
  | some room' =>
    cases h2 : alookup p room'.peers with
    | none => simp [h2, hr]
    | some peer =>
      cases h3 : alookup t peer.transports with
      | none => simp [h2, h3, hr]
      | some tr =>
        simp only [h2, h3]
        exact alookup_aset_ne_none n _ s.rooms hr

theorem consumeH_keeps (s : ServerState) (n p pid : String) (cc : Bool)
    (ck nid r : String) (room : SRoom) (hr : alookup r s.rooms = some room) :
    alookup r (consumeH s n p pid cc ck nid).1.rooms ≠ none := by
  unfold consumeH
  cases h1 : alookup n s.rooms with
  | none => simp [hr]
  | some room' =>
    by_cases hcc : cc = false
    · simp [hcc, hr]
    · simp only [if_neg hcc]
      cases h2 : alookup p room'.peers with
      | none => simp [h2, hr]
      | some peer =>
        cases h3 : peer.transports.find? (fun te => !te.2.isSender) with
        | none => simp [h2, h3, hr]
        | some te =>
          simp only [h2, h3]
          exact alookup_aset_ne_none n _ s.rooms hr

theorem resumeH_keeps (s : ServerState) (n p cid r : String) (room : SRoom)
    (hr : alookup r s.rooms = some room) :
    alookup r (resumeH s n p cid).rooms ≠ none := by
  unfold resumeH
  cases h1 : alookup n s.rooms with
  | none => simp [hr]
  | some room' =>
    cases h2 : alookup p room'.peers with
    | none => simp [h2, hr]
    | some peer =>
      cases h3 : alookup cid peer.consumers with
      | none => simp [h2, h3, hr]
      | some c =>
        simp only [h2, h3]
        exact alookup_aset_ne_none n _ s.rooms hr

theorem disconnectH_lookup_none_iff (s : ServerState) (n p r : String) (room : SRoom)
    (hr : alookup r s.rooms = some room) :
    (alookup r (disconnectH s n p).1.rooms = none ↔
      n = r ∧ (alookup p room.peers).isSome ∧ aerase p room.peers = []) := by
  by_cases hn : n = r
  · subst hn
    unfold disconnectH
    rw [hr]
    cases hp : alookup p room.peers with
    | none => simp [hp, hr]
    | some peer =>
      by_cases he : aerase p room.peers = []
      · simp [hp, he, alookup_aerase_self]
      · simp [hp, he, alookup_aset_self]
  · unfold disconnectH
    cases h1 : alookup n s.rooms with
    | none => simp [hr, hn]
    | some room' =>
      cases hp : alookup p room'.peers with
      | none => simp [hp, hr, hn]
      | some peer =>
        by_cases he : aerase p room'.peers = []
        · simp only [hp]
          rw [if_pos he]
          dsimp only
          rw [alookup_aerase_ne s.rooms hn, hr]
          simp [hn]
        · simp only [hp]
          rw [if_neg he]
          dsimp only
          have h4 := alookup_aset_ne_none n
            (⟨aerase p room'.peers⟩ : SRoom) s.rooms hr
          simp only [ne_eq] at h4
          simp [h4, hn]

theorem disconnectH_count (s : ServerState) (p r : String) (room : SRoom)
    (hr : alookup r s.rooms = some room)
    (hnd : (room.peers.map Prod.fst).Nodup) :
    roomPeerCount (disconnectH s r p).1 r +
      (if (alookup p room.peers).isSome then 1 else 0) = room.peers.length := by
  unfold disconnectH
  rw [hr]
  cases hp : alookup p room.peers with
  | none => simp [hp, roomPeerCount, hr]
  | some peer =>
    have hlen : (aerase p room.peers).length + 1 = room.peers.length :=
      length_aerase_of_nodup hnd (by simp [hp])
    by_cases he : aerase p room.peers = []
    · rw [he] at hlen
      simp only [hp, he, if_pos rfl]
      simp [roomPeerCount, alookup_aerase_self, ← hlen]
    · simp only [hp, if_neg he]
      simp [roomPeerCount, alookup_aset_self, hlen]

theorem disconnectH_router_iff (s : ServerState) (p r : String) (room : SRoom)
    (hr : alookup r s.rooms = some room) :
    ((disconnectH s r p).2.2 = true ↔
      (alookup p room.peers).isSome ∧ aerase p room.peers = []) := by
  unfold disconnectH
  rw [hr]
  cases hp : alookup p room.peers with
  | none => simp [hp]
  | some peer =>
    by_cases he : aerase p room.peers = []
    · simp [hp, he]
    · simp [hp, he]

/-! ## Claim C1 -/

/-- C1: over every registry operation (hence over every sequence of
join/leave/disconnect operations, by applying this at each step), a room's
peer count is tracked exactly — removing a present peer on disconnect
decrements the count by exactly one, so it can never go negative — and a
room is deleted if and only if the operation is a disconnect of a present
peer whose removal empties the peer set; the router is closed exactly in
that same case. -/
theorem room_delete_iff_empty (s : ServerState) (op : Op) (r : String) (room : SRoom)
    (hr : alookup r s.rooms = some room)
    (hnd : (room.peers.map Prod.fst).Nodup) :
    (alookup r (applyOp s op).rooms = none ↔
      ∃ p, op = Op.disconnect r p ∧ (alookup p room.peers).isSome ∧
        aerase p room.peers = []) ∧
    (∀ p, roomPeerCount (applyOp s (Op.disconnect r p)) r +
        (if (alookup p room.peers).isSome then 1 else 0) = room.peers.length) ∧
    (∀ p, ((disconnectH s r p).2.2 = true ↔
        (alookup p room.peers).isSome ∧ aerase p room.peers = [])) := by
  refine ⟨⟨?_, ?_⟩, ?_, ?_⟩
  · intro hnone
    cases op with
    | createRoom n => exact absurd hnone (createRoomH_keeps s n r room hr)
    | join n p => exact absurd hnone (joinRoomH_keeps s n p r room hr)
    | leave n p => exact absurd hnone (leaveRoomH_keeps s n p r room hr)
    | createTransport n p b nid =>
      exact absurd hnone (createTransportH_keeps s n p b nid r room hr)
    | produce n p t k m nid =>
      exact absurd hnone (produceH_keeps s n p t k m nid r room hr)
    | consume n p pid cc ck nid =>
      exact absurd hnone (consumeH_keeps s n p pid cc ck nid r room hr)
    | resume n p cid => exact absurd hnone (resumeH_keeps s n p cid r room hr)
    | disconnect n p =>
      have h := (disconnectH_lookup_none_iff s n p r room hr).mp hnone
      exact ⟨p, by rw [h.1], h.2.1, h.2.2⟩
  · rintro ⟨p, rfl, hsome, hempty⟩
    exact (disconnectH_lookup_none_iff s r p r room hr).mpr ⟨rfl, hsome, hempty⟩
  · intro p
    exact disconnectH_count s p r room hr hnd
  · intro p
    exact disconnectH_router_iff s p r room hr

/-- Witness for C1: in a room holding exactly the one peer `A`,
disconnecting `A` deletes the room. -/
theorem room_delete_iff_empty_witness :
    alookup "r" (applyOp oneRoomOnePeer (Op.disconnect "r" "A")).rooms = none :=
  (room_delete_iff_empty oneRoomOnePeer (Op.disconnect "r" "A") "r"
      ⟨[("A", ⟨[], [], []⟩)]⟩ (by decide) (by decide)).1.mpr
    ⟨"A", rfl, by decide, by decide⟩

/-! ## Claim C10 -/

/-- C10: the explicit `leaveRoom` broadcasts exactly one `producer-closed`
event per producer of the leaving peer and closes those producers, but
changes nothing else: the peer's transports and consumers are untouched,
its session stays in the room's peer map, other peers are untouched, and
no room is ever deleted by it (full release happens only on disconnect). -/
theorem leaveRoom_frame (s : ServerState) (r p : String) (room : SRoom) (peer : SPeer)
    (hr : alookup r s.rooms = some room) (hp : alookup p room.peers = some peer) :
    (leaveRoomH s r p).2 = peer.producers.map (fun pe => SEvent.producerClosed pe.2.id) ∧
    (∃ room2, alookup r (leaveRoomH s r p).1.rooms = some room2 ∧
      (∃ peer2, alookup p room2.peers = some peer2 ∧
        peer2.transports = peer.transports ∧
        peer2.consumers = peer.consumers ∧
        peer2.producers = peer.producers.map (fun pe => (pe.1, { pe.2 with closed := true }))) ∧
      (∀ q, q ≠ p → alookup q room2.peers = alookup q room.peers)) ∧
    (∀ r2, r2 ≠ r → alookup r2 (leaveRoomH s r p).1.rooms = alookup r2 s.rooms) := by
  unfold leaveRoomH
  rw [hr]
  simp only [hp]
  refine ⟨by simp, ?_, ?_⟩
  · refine ⟨⟨aset p { peer with
      producers := peer.producers.map (fun pe => (pe.1, { pe.2 with closed := true })) } room.peers⟩,
      ?_, ⟨_, alookup_aset_self p _ room.peers, rfl, rfl, rfl⟩, ?_⟩
    · exact alookup_aset_self r _ s.rooms
    · intro q hq
      exact alookup_aset_ne _ room.peers (fun h => hq h.symm)
  · intro r2 hr2
    exact alookup_aset_ne _ s.rooms (fun h => hr2 h.symm)

/-- Witness for C10: `A` soft-leaving room `r` in the two-peer registry
broadcasts exactly one `producer-closed` for its producer `pr1`. -/
theorem leaveRoom_frame_witness :
    (leaveRoomH twoPeerState "r" "A").2 = [SEvent.producerClosed "pr1"] := by
  have h := (leaveRoom_frame twoPeerState "r" "A" roomAB peerA (by decide) (by decide)).1
  simpa [peerA] using h

/-! ## Claim C3 -/

/-- C3 counterexample: peer `A` owns only the recv transport `t1`
(`isSender = false`), yet `produce` on `t1` succeeds — it replies with the
producer id, registers the producer and broadcasts `new-producer` — because
the handler never checks the transport's direction.  No `WrongDirection`
error exists anywhere in the handler. -/
theorem produce_recv_transport_succeeds :
    recvOnlyPeer.transports = [("t1", ⟨"t1", false, false⟩)] ∧
    (produceH recvOnlyState "r" "A" "t1" "video" "video" "p1").2.1 = some "p1" ∧
    (produceH recvOnlyState "r" "A" "t1" "video" "video" "p1").2.2 =
      [SEvent.newProducer "p1" "video" "A"] ∧
    (produceH recvOnlyState "r" "A" "t1" "video" "video" "p1").1 =
      ⟨[("r", ⟨[("A", ⟨[("t1", ⟨"t1", false, false⟩)],
                       [("p1", ⟨"p1", "video", "video", false⟩)], []⟩)]⟩)]⟩ := by
  decide

/-- C3 (amended): a produce request succeeds exactly when the transport id
identifies a transport owned by the requesting peer in its current room —
of either direction; on any failed lookup the handler sends no reply,
creates no producer and broadcasts nothing, leaving the state unchanged. -/
theorem produce_succeeds_iff_owned (s : ServerState) (r p tid kind mt newId : String) :
    ((produceH s r p tid kind mt newId).2.1 = some newId ↔
      ∃ room peer t, alookup r s.rooms = some room ∧
        alookup p room.peers = some peer ∧ alookup tid peer.transports = some t) ∧
    ((produceH s r p tid kind mt newId).2.1 = none →
      (produceH s r p tid kind mt newId).1 = s ∧
      (produceH s r p tid kind mt newId).2.2 = []) ∧
    (∀ room peer t, alookup r s.rooms = some room →
      alookup p room.peers = some peer → alookup tid peer.transports = some t →
      (produceH s r p tid kind mt newId).2.2 = [SEvent.newProducer newId mt p] ∧
      ∃ room2 peer2, alookup r (produceH s r p tid kind mt newId).1.rooms = some room2 ∧
        alookup p room2.peers = some peer2 ∧
        alookup newId peer2.producers = some ⟨newId, kind, mt, false⟩) := by
  unfold produceH
  cases h1 : alookup r s.rooms with
  | none => simp
  | some room' =>
    cases h2 : alookup p room'.peers with
    | none =>
      simp [h2]
      rintro room peer t rfl hp
      rw [h2] at hp
      cases hp
    | some peer' =>
      cases h3 : alookup tid peer'.transports with
      | none =>
        simp [h2, h3]
        rintro room peer t rfl hp
        rw [h2] at hp
        injection hp with hp
        subst hp
        intro ht
        rw [h3] at ht
        cases ht
      | some tr => simp [h2, h3, alookup_aset_self]

/-- Witness for C3 (amended): producing on the send transport `t1` owned by
`A` in the two-peer registry succeeds. -/
theorem produce_succeeds_iff_owned_witness :
    (produceH twoPeerState "r" "A" "t1" "video" "video" "p9").2.1 = some "p9" :=
  (produce_succeeds_iff_owned twoPeerState "r" "A" "t1" "video" "video" "p9").1.mpr
    ⟨roomAB, peerA, ⟨"t1", true, false⟩, by decide, by decide, by decide⟩

/-! ## Claim C4 -/

/-- C4 counterexample: joining the nonexistent room `room1` produces no
reply at all — the callback is never invoked and no error is returned, let
alone a `RoomNotReady` one — and the snapshot handed to a joiner of an
existing room lists producers that are already closed (here `pr1`, closed
by a prior soft leave), so it is not restricted to live producers. -/
theorem join_missing_room_silent :
    joinRoomH ⟨[]⟩ "room1" "A" = (⟨[]⟩, none) ∧
    (joinRoomH closedProducerState "r" "B").2 = some [⟨"pr1", "video", "A"⟩] ∧
    closedProducerPeer.producers = [("pr1", ⟨"pr1", "video", "video", true⟩)] := by
  decide

/-- C4 (amended): a join request for an absent room is silently ignored —
the registry is unchanged and no reply (hence no error) is sent; for an
existing room, join registers an empty peer session for the joiner, leaves
every other peer untouched, and replies with a snapshot containing exactly
the producers currently registered in the room (live or closed), each
tagged with its owner; when the joiner was not already present, every
snapshot entry belongs to another peer. -/
theorem joinRoom_spec (s : ServerState) (r p : String) :
    (alookup r s.rooms = none → joinRoomH s r p = (s, none)) ∧
    (∀ room, alookup r s.rooms = some room →
      (∃ room2, alookup r (joinRoomH s r p).1.rooms = some room2 ∧
        alookup p room2.peers = some ⟨[], [], []⟩ ∧
        (∀ q, q ≠ p → alookup q room2.peers = alookup q room.peers)) ∧
      (∃ snap, (joinRoomH s r p).2 = some snap ∧
        (∀ info : PInfo, info ∈ snap ↔
          ∃ e ∈ room.peers, ∃ pe ∈ e.2.producers,
            info = ⟨pe.2.id, pe.2.mediaType, e.1⟩) ∧
        (alookup p room.peers = none → ∀ info ∈ snap, info.peerId ≠ p))) := by
  constructor
  · intro h
    unfold joinRoomH
    rw [h]
  · intro room hr
    unfold joinRoomH
    rw [hr]
    dsimp only
    refine ⟨⟨⟨aset p ⟨[], [], []⟩ room.peers⟩, alookup_aset_self r _ s.rooms,
      alookup_aset_self p _ room.peers,
      fun q hq => alookup_aset_ne _ room.peers (fun h => hq h.symm)⟩,
      _, rfl, ?_, ?_⟩
    · intro info
      simp only [List.mem_flatMap, List.mem_map]
      constructor
      · rintro ⟨e, he, pe, hpe, rfl⟩
        exact ⟨e, he, pe, hpe, rfl⟩
      · rintro ⟨e, he, pe, hpe, rfl⟩
        exact ⟨e, he, pe, hpe, rfl⟩
    · intro hnone info hmem
      rw [alookup_none_iff] at hnone
      simp only [List.mem_flatMap, List.mem_map] at hmem
      obtain ⟨e, he, pe, hpe, rfl⟩ := hmem
      exact hnone e he

/-- Witness for C4 (amended): joining the absent room `room9` leaves the
empty registry unchanged and sends no reply. -/
theorem joinRoom_spec_witness :
    joinRoomH ⟨[]⟩ "room9" "B" = (⟨[]⟩, none) :=
  (joinRoom_spec ⟨[]⟩ "room9" "B").1 rfl

/-! ## Claim C5 -/

theorem paused_chase (s2 : ServerState) (r2 p2 cid : String) (rm rm2 : SRoom)
    (pr pr2 : SPeer) (c c2 : SConsumer)
    (hrm : alookup r2 s2.rooms = some rm) (hpr : alookup p2 rm.peers = some pr)
    (hc : alookup cid pr.consumers = some c) (hpaused : c.paused = true)
    (h1 : alookup r2 s2.rooms = some rm2) (h2 : alookup p2 rm2.peers = some pr2)
    (h3 : alookup cid pr2.consumers = some c2) : c2.paused = true := by
  rw [hrm] at h1
  injection h1 with h1
  subst h1
  rw [hpr] at h2
  injection h2 with h2
  subst h2
  rw [hc] at h3
  injection h3 with h3
  subst h3
  exact hpaused

theorem paused_aset_case (s2 : ServerState) (r2 p2 cid n q : String) (rmx : SRoom)
    (px : SPeer) (rm rm2 : SRoom) (pr pr2 : SPeer) (c c2 : SConsumer)
    (hA : alookup n s2.rooms = some rmx)
    (hrm : alookup r2 s2.rooms = some rm) (hpr : alookup p2 rm.peers = some pr)
    (hc : alookup cid pr.consumers = some c) (hpaused : c.paused = true)
    (hpx : n = r2 → q = p2 → ∀ c3, alookup cid px.consumers = some c3 → c3.paused = true)
    (h1 : alookup r2 (aset n ⟨aset q px rmx.peers⟩ s2.rooms) = some rm2)
    (h2 : alookup p2 rm2.peers = some pr2)
    (h3 : alookup cid pr2.consumers = some c2) : c2.paused = true := by
  by_cases hnr : n = r2
  · subst hnr
    rw [hrm] at hA
    injection hA with hA
    subst hA
    rw [alookup_aset_self] at h1
    injection h1 with h1
    subst h1
    by_cases hqp : q = p2
    · subst hqp
      rw [show (⟨aset q px rm.peers⟩ : SRoom).peers = aset q px rm.peers from rfl,
        alookup_aset_self] at h2
      injection h2 with h2
      subst h2
      exact hpx rfl rfl c2 h3
    · rw [show (⟨aset q px rm.peers⟩ : SRoom).peers = aset q px rm.peers from rfl,
        alookup_aset_ne px rm.peers hqp] at h2
      exact paused_chase s2 n p2 cid rm rm pr pr2 c c2 hrm hpr hc hpaused hrm h2 h3
  · rw [alookup_aset_ne _ s2.rooms hnr] at h1
    exact paused_chase s2 r2 p2 cid rm rm2 pr pr2 c c2 hrm hpr hc hpaused h1 h2 h3

/-- No registry operation other than an explicit `resume` for exactly that
consumer ever turns a paused consumer into a resumed one. -/
theorem paused_only_cleared_by_resume (s2 : ServerState) (op : Op) (r2 p2 cid : String)
    (rm : SRoom) (pr : SPeer) (c : SConsumer) (rm2 : SRoom) (pr2 : SPeer) (c2 : SConsumer)
    (hne : op ≠ Op.resume r2 p2 cid)
    (hrm : alookup r2 s2.rooms = some rm) (hpr : alookup p2 rm.peers = some pr)
    (hc : alookup cid pr.consumers = some c) (hpaused : c.paused = true)
    (h1 : alookup r2 (applyOp s2 op).rooms = some rm2)
    (h2 : alookup p2 rm2.peers = some pr2)
    (h3 : alookup cid pr2.consumers = some c2) : c2.paused = true := by
  cases op with
  | createRoom n =>
    simp only [applyOp, createRoomH] at h1
    cases hA : alookup n s2.rooms with
    | some rx =>
      simp only [hA] at h1
      exact paused_chase s2 r2 p2 cid rm rm2 pr pr2 c c2 hrm hpr hc hpaused h1 h2 h3
    | none =>
      simp only [hA] at h1
      by_cases hnr : n = r2
      · subst hnr
        rw [hA] at hrm
        cases hrm
      · rw [alookup_aset_ne _ s2.rooms hnr] at h1
        exact paused_chase s2 r2 p2 cid rm rm2 pr pr2 c c2 hrm hpr hc hpaused h1 h2 h3
  | join n q =>
    simp only [applyOp, joinRoomH] at h1
    cases hA : alookup n s2.rooms with
    | none =>
      simp only [hA] at h1
      exact paused_chase s2 r2 p2 cid rm rm2 pr pr2 c c2 hrm hpr hc hpaused h1 h2 h3
    | some rmx =>
      simp only [hA] at h1
      exact paused_aset_case s2 r2 p2 cid n q rmx ⟨[], [], []⟩ rm rm2 pr pr2 c c2 hA
        hrm hpr hc hpaused (fun _ _ c3 h => nomatch h) h1 h2 h3
  | leave n q =>
    simp only [applyOp, leaveRoomH] at h1
    cases hA : alookup n s2.rooms with
    | none =>
      simp only [hA] at h1
      exact paused_chase s2 r2 p2 cid rm rm2 pr pr2 c c2 hrm hpr hc hpaused h1 h2 h3
    | some rmx =>
      simp only [hA] at h1
      cases hB : alookup q rmx.peers with
      | none =>
        simp only [hB] at h1
        exact paused_chase s2 r2 p2 cid rm rm2 pr pr2 c c2 hrm hpr hc hpaused h1 h2 h3
      | some peerx =>
        simp only [hB] at h1
        refine paused_aset_case s2 r2 p2 cid n q rmx _ rm rm2 pr pr2 c c2 hA
          hrm hpr hc hpaused ?_ h1 h2 h3
        intro hn hq c3 h4
        subst hn
        subst hq
        rw [hrm] at hA
        injection hA with hA
        subst hA
        rw [hpr] at hB
        injection hB with hB
        subst hB
        rw [hc] at h4
        injection h4 with h4
        subst h4
        exact hpaused
  | createTransport n q b nid =>
    simp only [applyOp, createTransportH] at h1
    cases hA : alookup n s2.rooms with
    | none =>
      simp only [hA] at h1
      exact paused_chase s2 r2 p2 cid rm rm2 pr pr2 c c2 hrm hpr hc hpaused h1 h2 h3
    | some rmx =>
      simp only [hA] at h1
      cases hB : alookup q rmx.peers with
      | none =>
        simp only [hB] at h1
        exact paused_chase s2 r2 p2 cid rm rm2 pr pr2 c c2 hrm hpr hc hpaused h1 h2 h3
      | some peerx =>
        simp only [hB] at h1
        refine paused_aset_case s2 r2 p2 cid n q rmx _ rm rm2 pr pr2 c c2 hA
          hrm hpr hc hpaused ?_ h1 h2 h3
        intro hn hq c3 h4
        subst hn
        subst hq
        rw [hrm] at hA
        injection hA with hA
        subst hA
        rw [hpr] at hB
        injection hB with hB
        subst hB
        rw [hc] at h4
        injection h4 with h4
        subst h4
        exact hpaused
  | produce n q tid kind mt nid =>
    simp only [applyOp, produceH] at h1
    cases hA : alookup n s2.rooms with
    | none =>
      simp only [hA] at h1
      exact paused_chase s2 r2 p2 cid rm rm2 pr pr2 c c2 hrm hpr hc hpaused h1 h2 h3
    | some rmx =>
      simp only [hA] at h1
      cases hB : alookup q rmx.peers with
      | none =>
        simp only [hB] at h1
        exact paused_chase s2 r2 p2 cid rm rm2 pr pr2 c c2 hrm hpr hc hpaused h1 h2 h3
      | some peerx =>
        simp only [hB] at h1
        cases hC : alookup tid peerx.transports with
        | none =>
          simp only [hC] at h1
          exact paused_chase s2 r2 p2 cid rm rm2 pr pr2 c c2 hrm hpr hc hpaused h1 h2 h3
        | some tx =>
          simp only [hC] at h1
          refine paused_aset_case s2 r2 p2 cid n q rmx _ rm rm2 pr pr2 c c2 hA
            hrm hpr hc hpaused ?_ h1 h2 h3
          intro hn hq c3 h4
          subst hn
          subst hq
          rw [hrm] at hA
          injection hA with hA
          subst hA
          rw [hpr] at hB
          injection hB with hB
          subst hB
          rw [hc] at h4
          injection h4 with h4
          subst h4
          exact hpaused
  | consume n q pid cc ck nid =>
    simp only [applyOp, consumeH] at h1
    cases hA : alookup n s2.rooms with
    | none =>
      simp only [hA] at h1
      exact paused_chase s2 r2 p2 cid rm rm2 pr pr2 c c2 hrm hpr hc hpaused h1 h2 h3
    | some rmx =>
      simp only [hA] at h1
      by_cases hcc : cc = false
      · rw [if_pos hcc] at h1
        exact paused_chase s2 r2 p2 cid rm rm2 pr pr2 c c2 hrm hpr hc hpaused h1 h2 h3
      · rw [if_neg hcc] at h1
        cases hB : alookup q rmx.peers with
        | none =>
          simp only [hB] at h1
          exact paused_chase s2 r2 p2 cid rm rm2 pr pr2 c c2 hrm hpr hc hpaused h1 h2 h3
        | some peerx =>
          simp only [hB] at h1
          cases hC : peerx.transports.find? (fun te => !te.2.isSender) with
          | none =>
            simp only [hC] at h1
            exact paused_chase s2 r2 p2 cid rm rm2 pr pr2 c c2 hrm hpr hc hpaused h1 h2 h3
          | some te =>
            simp only [hC] at h1
            refine paused_aset_case s2 r2 p2 cid n q rmx _ rm rm2 pr pr2 c c2 hA
              hrm hpr hc hpaused ?_ h1 h2 h3
            intro hn hq c3 h4
            subst hn
            subst hq
            by_cases hnc : nid = cid
            · subst hnc
              rw [alookup_aset_self] at h4
              injection h4 with h4
              subst h4
              rfl
            · rw [alookup_aset_ne _ peerx.consumers hnc] at h4
              rw [hrm] at hA
              injection hA with hA
              subst hA
              rw [hpr] at hB
              injection hB with hB
              subst hB
              rw [hc] at h4
              injection h4 with h4
              subst h4
              exact hpaused
  | resume n q cid2 =>
    simp only [applyOp, resumeH] at h1
    cases hA : alookup n s2.rooms with
    | none =>
      simp only [hA] at h1
      exact paused_chase s2 r2 p2 cid rm rm2 pr pr2 c c2 hrm hpr hc hpaused h1 h2 h3
    | some rmx =>
      simp only [hA] at h1
      cases hB : alookup q rmx.peers with
      | none =>
        simp only [hB] at h1
        exact paused_chase s2 r2 p2 cid rm rm2 pr pr2 c c2 hrm hpr hc hpaused h1 h2 h3
      | some peerx =>
        simp only [hB] at h1
        cases hC : alookup cid2 peerx.consumers with
        | none =>
          simp only [hC] at h1
          exact paused_chase s2 r2 p2 cid rm rm2 pr pr2 c c2 hrm hpr hc hpaused h1 h2 h3
        | some cx =>
          simp only [hC] at h1
          refine paused_aset_case s2 r2 p2 cid n q rmx _ rm rm2 pr pr2 c c2 hA
            hrm hpr hc hpaused ?_ h1 h2 h3
          intro hn hq c3 h4
          subst hn
          subst hq
          have hcdne : cid2 ≠ cid := by
            intro hcd
            subst hcd
            exact hne rfl
          rw [alookup_aset_ne _ peerx.consumers hcdne] at h4
          rw [hrm] at hA
          injection hA with hA
          subst hA
          rw [hpr] at hB
          injection hB with hB
          subst hB
          rw [hc] at h4
          injection h4 with h4
          subst h4
          exact hpaused
  | disconnect n q =>
    simp only [applyOp, disconnectH] at h1
    cases hA : alookup n s2.rooms with
    | none =>
      simp only [hA] at h1
      exact paused_chase s2 r2 p2 cid rm rm2 pr pr2 c c2 hrm hpr hc hpaused h1 h2 h3
    | some rmx =>
      simp only [hA] at h1
      cases hB : alookup q rmx.peers with
      | none =>
        simp only [hB] at h1
        exact paused_chase s2 r2 p2 cid rm rm2 pr pr2 c c2 hrm hpr hc hpaused h1 h2 h3
      | some peerx =>
        simp only [hB] at h1
        by_cases he : aerase q rmx.peers = []
        · rw [if_pos he] at h1
          by_cases hnr : n = r2
          · subst hnr
            rw [show (⟨aerase n s2.rooms⟩ : ServerState).rooms = aerase n s2.rooms from rfl,
              alookup_aerase_self] at h1
            cases h1
          · rw [show (⟨aerase n s2.rooms⟩ : ServerState).rooms = aerase n s2.rooms from rfl,
              alookup_aerase_ne s2.rooms hnr] at h1
            exact paused_chase s2 r2 p2 cid rm rm2 pr pr2 c c2 hrm hpr hc hpaused h1 h2 h3
        · rw [if_neg he] at h1
          by_cases hnr : n = r2
          · subst hnr
            rw [show (⟨aset n ⟨aerase q rmx.peers⟩ s2.rooms⟩ : ServerState).rooms
                = aset n ⟨aerase q rmx.peers⟩ s2.rooms from rfl,
              alookup_aset_self] at h1
            injection h1 with h1
            subst h1
            by_cases hqp : q = p2
            · subst hqp
              rw [show (⟨aerase q rmx.peers⟩ : SRoom).peers = aerase q rmx.peers from rfl,
                alookup_aerase_self] at h2
              cases h2
            · rw [show (⟨aerase q rmx.peers⟩ : SRoom).peers = aerase q rmx.peers from rfl,
                alookup_aerase_ne rmx.peers hqp] at h2
              rw [hrm] at hA
              injection hA with hA
              subst hA
              rw [hpr] at h2
              injection h2 with h2
              subst h2
              rw [hc] at h3
              injection h3 with h3
              subst h3
              exact hpaused
          · rw [show (⟨aset n ⟨aerase q rmx.peers⟩ s2.rooms⟩ : ServerState).rooms
                = aset n ⟨aerase q rmx.peers⟩ s2.rooms from rfl,
              alookup_aset_ne _ s2.rooms hnr] at h1
            exact paused_chase s2 r2 p2 cid rm rm2 pr pr2 c c2 hrm hpr hc hpaused h1 h2 h3

/-- C5: in an existing room, a consume request fails with the handler's
capability error (`"Cannot consume"`) whenever the SFU reports the producer
cannot be consumed; otherwise, if the requesting peer has no recv transport
it fails with `"No recv transport found"`; otherwise it creates a consumer
bound to the peer's recv transport (`isSender = false`) that starts paused —
and no registry operation other than an explicit resume targeted at exactly
that consumer ever clears the paused flag. -/
theorem consume_paths (s : ServerState) (r p prodId : String) (canCons : Bool)
    (ck nid : String) (room : SRoom)
    (hr : alookup r s.rooms = some room) :
    (canCons = false →
      consumeH s r p prodId canCons ck nid = (s, ConsumeReply.err "Cannot consume")) ∧
    (∀ peer, canCons = true → alookup p room.peers = some peer →
      peer.transports.find? (fun te => !te.2.isSender) = none →
      consumeH s r p prodId canCons ck nid = (s, ConsumeReply.err "No recv transport found")) ∧
    (∀ peer te, canCons = true → alookup p room.peers = some peer →
      peer.transports.find? (fun te => !te.2.isSender) = some te →
      (consumeH s r p prodId canCons ck nid).2 = ConsumeReply.ok nid prodId ck ∧
      te.2.isSender = false ∧
      (∃ room2 peer2,
        alookup r (consumeH s r p prodId canCons ck nid).1.rooms = some room2 ∧
        alookup p room2.peers = some peer2 ∧
        alookup nid peer2.consumers = some ⟨nid, prodId, te.2.id, ck, true⟩)) ∧
    (∀ (s2 : ServerState) (op : Op) (r2 p2 cid : String) (rm rm2 : SRoom)
        (pr pr2 : SPeer) (c c2 : SConsumer),
      op ≠ Op.resume r2 p2 cid →
      alookup r2 s2.rooms = some rm → alookup p2 rm.peers = some pr →
      alookup cid pr.consumers = some c → c.paused = true →
      alookup r2 (applyOp s2 op).rooms = some rm2 →
      alookup p2 rm2.peers = some pr2 →
      alookup cid pr2.consumers = some c2 → c2.paused = true) := by
  refine ⟨?_, ?_, ?_, ?_⟩
  · intro hcc
    subst hcc
    unfold consumeH
    simp [hr]
  · intro peer hcc hp hfind
    subst hcc
    unfold consumeH
    simp [hr, hp, hfind]
  · intro peer te hcc hp hfind
    subst hcc
    have hsender : te.2.isSender = false := by
      have h4 := List.find?_some hfind
      simpa using h4
    unfold consumeH
    simp only [hr, hp, hfind]
    refine ⟨by simp,
      hsender,
      ⟨aset p { peer with
        consumers := aset nid ⟨nid, prodId, te.2.id, ck, true⟩ peer.consumers } room.peers⟩,
      { peer with
        consumers := aset nid ⟨nid, prodId, te.2.id, ck, true⟩ peer.consumers },
      ?_, ?_, ?_⟩
    · simp [alookup_aset_self]
    · exact alookup_aset_self p _ room.peers
    · exact alookup_aset_self nid _ peer.consumers
  · intro s2 op r2 p2 cid rm rm2 pr pr2 c c2 hne hrm hpr hc hpaused h1 h2 h3
    exact paused_only_cleared_by_resume s2 op r2 p2 cid rm pr c rm2 pr2 c2
      hne hrm hpr hc hpaused h1 h2 h3

/-- Witness for C5: peer `A` (whose only transport is the recv transport
`t1`) successfully gets a paused consumer `c7` for producer `prod7` when
the SFU reports compatibility. -/
theorem consume_paths_witness :
    (consumeH recvOnlyState "r" "A" "prod7" true "audio" "c7").2 =
      ConsumeReply.ok "c7" "prod7" "audio" :=
  ((consume_paths recvOnlyState "r" "A" "prod7" true "audio" "c7"
      ⟨[("A", recvOnlyPeer)]⟩ (by decide)).2.2.1 recvOnlyPeer
      ("t1", ⟨"t1", false, false⟩) rfl (by decide) (by decide)).1

/-! ## Claim C6 -/

theorem filter_ne_kind_filter_eq (xs : List Track) (k : TKind) :
    (xs.filter (fun x => x.kind ≠ k)).filter (fun x => x.kind = k) = [] := by
  induction xs with
  | nil => rfl
  | cons x rest ih =>
    by_cases hx : x.kind = k
    · simp [List.filter_cons, hx, ih]
    · simp [List.filter_cons, hx, ih]

theorem filter_eq_new (xs : List Track) (t : Track) :
    ((xs.filter (fun x => x.kind ≠ t.kind)) ++ [t]).filter (fun x => x.kind = t.kind)
      = [t] := by
  rw [List.filter_append, filter_ne_kind_filter_eq]
  simp

theorem kindCount_other (xs : List Track) (t : Track) (k : TKind) (hk : k ≠ t.kind) :
    kindCount ((xs.filter (fun x => x.kind ≠ t.kind)) ++ [t]) k ≤ kindCount xs k := by
  unfold kindCount
  rw [List.filter_append]
  have h2 : ([t].filter (fun x => x.kind = k)) = [] := by
    simp [Ne.symm hk]
  rw [h2, List.append_nil]
  exact List.Sublist.length_le (List.Sublist.filter _ (List.filter_sublist xs))

theorem attach_inv (peers : List (String × RemotePeerData)) (p pid : String)
    (mt : TKind) (t : Track) (h : StreamInv peers) :
    StreamInv (attachRemoteTrack peers p pid mt t) := by
  intro q d ts hq hs
  unfold attachRemoteTrack at hq
  by_cases hqp : q = p
  · subst hqp
    rw [alookup_aset_self] at hq
    injection hq with hq
    subst hq
    simp only at hs
    injection hs with hs
    subst hs
    have hold : ∀ k, kindCount ((((alookup q peers).bind (fun d => d.stream)).getD []))
        k ≤ 1 := by
      intro k
      cases ho : alookup q peers with
      | none => simp [kindCount, ho]
      | some od =>
        cases hos : od.stream with
        | none => simp [kindCount, ho, hos]
        | some ts0 =>
          have h3 := h q od ts0 ho hos
          have h4 : (((some od).bind (fun d => d.stream)).getD []) = ts0 := by
            simp [hos]
          rw [h4]
          cases k with
          | audio => exact h3.1
          | video => exact h3.2
    constructor
    · cases htk : t.kind with
      | audio =>
        have h4 := filter_eq_new (((alookup q peers).bind (fun d => d.stream)).getD []) t
        rw [htk] at h4
        simp only [kindCount, htk, h4]
        simp
      | video =>
        have h5 : TKind.audio ≠ t.kind := by rw [htk]; intro h6; cases h6
        rw [← htk]
        exact le_trans (kindCount_other _ t TKind.audio h5) (hold TKind.audio)
    · cases htk : t.kind with
      | video =>
        have h4 := filter_eq_new (((alookup q peers).bind (fun d => d.stream)).getD []) t
        rw [htk] at h4
        simp only [kindCount, htk, h4]
        simp
      | audio =>
        have h5 : TKind.video ≠ t.kind := by rw [htk]; intro h6; cases h6
        rw [← htk]
        exact le_trans (kindCount_other _ t TKind.video h5) (hold TKind.video)
  · rw [alookup_aset_ne _ peers (fun hh => hqp hh.symm)] at hq
    exact h q d ts hq hs

theorem applyAttaches_inv (ops : List AttachOp) :
    ∀ peers, StreamInv peers → StreamInv (applyAttaches peers ops) := by
  induction ops with
  | nil =>
    intro peers h
    simpa [applyAttaches] using h
  | cons a rest ih =>
    intro peers h
    have h1 : applyAttaches peers (a :: rest) =
        applyAttaches (attachRemoteTrack peers a.peerId a.producerId a.mediaType a.track)
          rest := by
      simp [applyAttaches]
    rw [h1]
    exact ih _ (attach_inv peers a.peerId a.producerId a.mediaType a.track h)

/-- C6: over every sequence of track attachments starting from no remote
peers, a peer's composite stream holds at most one audio and at most one
video track; moreover any single attachment leaves the target peer with
exactly the new track as the only track of its kind (same-kind tracks are
replaced). -/
theorem remote_stream_one_track_per_kind (ops : List AttachOp) (p : String)
    (d : RemotePeerData) (ts : List Track)
    (hd : alookup p (applyAttaches [] ops) = some d) (hs : d.stream = some ts) :
    (kindCount ts TKind.audio ≤ 1 ∧ kindCount ts TKind.video ≤ 1) ∧
    (∀ (peers : List (String × RemotePeerData)) (q pid : String) (mt : TKind)
        (t : Track) (d2 : RemotePeerData),
      alookup q (attachRemoteTrack peers q pid mt t) = some d2 →
      ∃ ts2, d2.stream = some ts2 ∧
        ts2.filter (fun x => x.kind = t.kind) = [t]) := by
  constructor
  · have hempty : StreamInv [] := by
      intro q d0 ts0 h0
      exact absurd h0 (by simp [alookup])
    exact applyAttaches_inv ops [] hempty p d ts hd hs
  · intro peers q pid mt t d2 h
    unfold attachRemoteTrack at h
    rw [alookup_aset_self] at h
    injection h with h
    subst h
    exact ⟨_, rfl, filter_eq_new _ t⟩

/-- Witness for C6: after attaching two audio tracks in a row for peer `B`,
the resulting stream holds exactly one audio track (`ta2`). -/
theorem remote_stream_one_track_per_kind_witness :
    kindCount [⟨"ta2", TKind.audio⟩] TKind.audio ≤ 1 ∧
    kindCount [⟨"ta2", TKind.audio⟩] TKind.video ≤ 1 :=
  (remote_stream_one_track_per_kind attachTwice "B"
    ⟨some [⟨"ta2", TKind.audio⟩], none, some "p2"⟩ [⟨"ta2", TKind.audio⟩]
    (by decide) rfl).1

/-! ## Claim C9 -/

/-- C9 counterexample: with the client already in the `calling` state, an
incoming offer from `X` is dropped without any reply — no `call-declined`
message is sent back to the offerer, and nothing changes.  The claim that a
busy client auto-declines (sends a decline back) is false: the handler's
guard is `if (callState !== 'idle') return;`, a silent drop. -/
theorem incoming_while_busy_no_decline :
    onIncomingCall busyClient ⟨"X", "video"⟩ = (busyClient, []) ∧
    ClientMsg.callDeclined "X" ∉ (onIncomingCall busyClient ⟨"X", "video"⟩).2 := by
  decide

/-- C9 (amended): at most one call is pending at a time because an incoming
offer received while the call state is not idle is silently ignored — no
state change, the offer is not presented, and no message (in particular no
decline) is emitted; an offer received while idle becomes the pending
incoming call; a `call-declined` message is emitted only by the user's
explicit decline. -/
theorem incoming_while_busy_ignored (s : ClientState) (d : IncomingCall)
    (h : s.callState ≠ CallSt.idle) :
    onIncomingCall s d = (s, []) ∧
    (∀ (s2 : ClientState) (d2 : IncomingCall), s2.callState = CallSt.idle →
      onIncomingCall s2 d2 =
        ({ s2 with incomingCallData := some d2, callState := CallSt.receiving }, [])) ∧
    (∀ (s3 : ClientState) (d3 : IncomingCall), s3.incomingCallData = some d3 →
      handleDeclineCall s3 =
        ({ s3 with callState := CallSt.idle, incomingCallData := none },
         [ClientMsg.callDeclined d3.fromId])) := by
  refine ⟨?_, ?_, ?_⟩
  · unfold onIncomingCall
    rw [if_pos h]
  · intro s2 d2 h2
    unfold onIncomingCall
    rw [if_neg (show ¬s2.callState ≠ CallSt.idle from fun hne => hne h2)]
  · intro s3 d3 h3
    unfold handleDeclineCall
    rw [h3]

/-- Witness for C9 (amended): the busy client ignores an offer from `Y`. -/
theorem incoming_while_busy_ignored_witness :
    onIncomingCall busyClient ⟨"Y", "audio"⟩ = (busyClient, []) :=
  (incoming_while_busy_ignored busyClient ⟨"Y", "audio"⟩ (by decide)).1

/-! ## Claim C2 -/

theorem stopAudioAnalysis_consumers (s : ClientState) (id : String) :
    (stopAudioAnalysis s id).1.consumers = s.consumers := by
  unfold stopAudioAnalysis
  cases h : alookup id s.analysisRefs <;> rfl

theorem stopAudioAnalysis_remotePeers (s : ClientState) (id : String) :
    (stopAudioAnalysis s id).1.remotePeers = s.remotePeers := by
  unfold stopAudioAnalysis
  cases h : alookup id s.analysisRefs <;> rfl

/-- C2: when `producer-closed` for producer `p` is handled (one synchronous
function call), given that a consumer for `p` exists, that `q` is the peer
the search finds as owner of `p`, and that the owner's stream contains a
track of `p`'s kind: the consumer is closed and removed from the consumers
map, the track is removed from the owner's stream, and the owner's entry is
deleted entirely exactly when the removal leaves no track. -/
theorem producer_closed_cleanup (s : ClientState) (p : String) (c : CConsumer)
    (q : String) (d : RemotePeerData) (ts : List Track) (tr : Track)
    (hc : alookup p s.consumers = some c)
    (hq : findOwner s.remotePeers p = some (q, d))
    (hs : d.stream = some ts)
    (htr : ts.find? (fun t =>
      t.kind = (if d.videoProducerId = some p then TKind.video else TKind.audio))
        = some tr) :
    alookup p (handleProducerClosed s p).1.consumers = none ∧
    CEffect.closeConsumer c.id ∈ (handleProducerClosed s p).2 ∧
    (alookup q (handleProducerClosed s p).1.remotePeers = none ↔
      ts.filter (fun t => t.id ≠ tr.id) = []) ∧
    (∀ d2, alookup q (handleProducerClosed s p).1.remotePeers = some d2 →
      d2.stream = some (ts.filter (fun t => t.id ≠ tr.id)) ∧
      tr ∉ ts.filter (fun t => t.id ≠ tr.id)) := by
  have hnotmem : tr ∉ ts.filter (fun t => t.id ≠ tr.id) := by
    intro hmem
    have h2 := List.of_mem_filter hmem
    simp at h2
  unfold handleProducerClosed
  simp only [hc, hq, hs, htr]
  by_cases hrem : ts.filter (fun t => t.id ≠ tr.id) = []
  · rw [if_pos (List.isEmpty_iff.mpr hrem)]
    refine ⟨?_, ?_, ?_, ?_⟩
    · simp [stopAudioAnalysis_consumers, alookup_aerase_self]
    · simp
    · exact Iff.intro (fun _ => hrem) (fun _ => by simp [alookup_aerase_self])
    · intro d2 h2
      simp only [alookup_aerase_self] at h2
      cases h2
  · rw [if_neg (fun h2 => hrem (List.isEmpty_iff.mp h2))]
    by_cases hv : d.videoProducerId = some p
    · simp only [if_pos hv]
      refine ⟨?_, ?_, ?_, ?_⟩
      · simp [alookup_aerase_self]
      · simp
      · constructor
        · intro h2
          exact absurd h2 (by simp [alookup_aset_self])
        · intro h2
          exact absurd h2 hrem
      · intro d2 h2
        simp only [alookup_aset_self] at h2
        injection h2 with h2
        subst h2
        exact ⟨rfl, hnotmem⟩
    · simp only [if_neg hv]
      refine ⟨?_, ?_, ?_, ?_⟩
      · simp [stopAudioAnalysis_consumers, alookup_aerase_self]
      · simp
      · constructor
        · intro h2
          exact absurd h2 (by simp [alookup_aset_self])
        · intro h2
          exact absurd h2 hrem
      · intro d2 h2
        simp only [alookup_aset_self] at h2
        injection h2 with h2
        subst h2
        exact ⟨rfl, hnotmem⟩

/-- Witness for C2: after `producer-closed` for `p1` is handled by the
in-call client, the consumers map no longer has an entry for `p1`. -/
theorem producer_closed_cleanup_witness :
    alookup "p1" (handleProducerClosed inCallClient "p1").1.consumers = none :=
  (producer_closed_cleanup inCallClient "p1" ⟨"c1", ⟨"rt1", TKind.audio⟩⟩ "B"
    ⟨some [⟨"rt1", TKind.audio⟩], none, some "p1"⟩ [⟨"rt1", TKind.audio⟩]
    ⟨"rt1", TKind.audio⟩ (by decide) (by decide) rfl (by decide)).1

/-! ## Claim C8 -/

theorem stopAudioAnalysis_localStream (s : ClientState) (id : String) :
    (stopAudioAnalysis s id).1.localStream = s.localStream := by
  unfold stopAudioAnalysis
  cases h : alookup id s.analysisRefs <;> rfl

theorem stopAudioAnalysis_sendTransport (s : ClientState) (id : String) :
    (stopAudioAnalysis s id).1.sendTransport = s.sendTransport := by
  unfold stopAudioAnalysis
  cases h : alookup id s.analysisRefs <;> rfl

theorem stopAudioAnalysis_recvTransport (s : ClientState) (id : String) :
    (stopAudioAnalysis s id).1.recvTransport = s.recvTransport := by
  unfold stopAudioAnalysis
  cases h : alookup id s.analysisRefs <;> rfl

theorem stopAudioAnalysis_analysisRefs (s : ClientState) (id : String) :
    (stopAudioAnalysis s id).1.analysisRefs = aerase id s.analysisRefs := by
  unfold stopAudioAnalysis
  cases h : alookup id s.analysisRefs with
  | some a => rfl
  | none => exact (aerase_of_alookup_none h).symm

theorem stopEach_localStream (ks : List String) :
    ∀ acc, (stopEach ks acc).1.localStream = acc.1.localStream := by
  induction ks with
  | nil => intro acc; rfl
  | cons k rest ih =>
    intro acc
    show (stopEach rest ((stopAudioAnalysis acc.1 k).1,
      acc.2 ++ (stopAudioAnalysis acc.1 k).2)).1.localStream = acc.1.localStream
    rw [ih]
    exact stopAudioAnalysis_localStream acc.1 k

theorem stopEach_sendTransport (ks : List String) :
    ∀ acc, (stopEach ks acc).1.sendTransport = acc.1.sendTransport := by
  induction ks with
  | nil => intro acc; rfl
  | cons k rest ih =>
    intro acc
    show (stopEach rest ((stopAudioAnalysis acc.1 k).1,
      acc.2 ++ (stopAudioAnalysis acc.1 k).2)).1.sendTransport = acc.1.sendTransport
    rw [ih]
    exact stopAudioAnalysis_sendTransport acc.1 k

theorem stopEach_recvTransport (ks : List String) :
    ∀ acc, (stopEach ks acc).1.recvTransport = acc.1.recvTransport := by
  induction ks with
  | nil => intro acc; rfl
  | cons k rest ih =>
    intro acc
    show (stopEach rest ((stopAudioAnalysis acc.1 k).1,
      acc.2 ++ (stopAudioAnalysis acc.1 k).2)).1.recvTransport = acc.1.recvTransport
    rw [ih]
    exact stopAudioAnalysis_recvTransport acc.1 k

theorem stopEach_analysisRefs (ks : List String) :
    ∀ acc, (stopEach ks acc).1.analysisRefs = eraseAll ks acc.1.analysisRefs := by
  induction ks with
  | nil => intro acc; rfl
  | cons k rest ih =>
    intro acc
    show (stopEach rest ((stopAudioAnalysis acc.1 k).1,
      acc.2 ++ (stopAudioAnalysis acc.1 k).2)).1.analysisRefs
      = eraseAll (k :: rest) acc.1.analysisRefs
    rw [ih, stopAudioAnalysis_analysisRefs]
    rfl

theorem closeStep_localStream (z : ClientState × List CEffect) :
    (closeAudioContextStep z).1.localStream = z.1.localStream := by
  unfold closeAudioContextStep
  cases h : z.1.audioContextClosed with
  | none => rfl
  | some b => cases b <;> rfl

theorem closeStep_sendTransport (z : ClientState × List CEffect) :
    (closeAudioContextStep z).1.sendTransport = z.1.sendTransport := by
  unfold closeAudioContextStep
  cases h : z.1.audioContextClosed with
  | none => rfl
  | some b => cases b <;> rfl

theorem closeStep_recvTransport (z : ClientState × List CEffect) :
    (closeAudioContextStep z).1.recvTransport = z.1.recvTransport := by
  unfold closeAudioContextStep
  cases h : z.1.audioContextClosed with
  | none => rfl
  | some b => cases b <;> rfl

theorem closeStep_analysisRefs (z : ClientState × List CEffect) :
    (closeAudioContextStep z).1.analysisRefs = z.1.analysisRefs := by
  unfold closeAudioContextStep
  cases h : z.1.audioContextClosed with
  | none => rfl
  | some b => cases b <;> rfl

theorem closeStep_ac (z : ClientState × List CEffect) :
    (closeAudioContextStep z).1.audioContextClosed = none ∨
    (closeAudioContextStep z).1.audioContextClosed = some true := by
  unfold closeAudioContextStep
  cases h : z.1.audioContextClosed with
  | none => exact Or.inl h
  | some b =>
    cases b with
    | true => exact Or.inr h
    | false => exact Or.inl rfl

theorem eraseAll_eq_nil {β : Type} :
    ∀ (ks : List String) (l : List (String × β)),
      (∀ e ∈ l, e.1 ∈ ks) → eraseAll ks l = [] := by
  intro ks
  induction ks with
  | nil =>
    intro l h
    cases l with
    | nil => rfl
    | cons e rest => exact absurd (h e (List.mem_cons_self e rest)) (by simp)
  | cons k rest ih =>
    intro l h
    show eraseAll rest (aerase k l) = []
    apply ih
    intro e he
    have h2 := mem_aerase_key he
    rcases List.mem_cons.mp (h e h2.1) with h3 | h3
    · exact absurd h3 h2.2
    · exact h3

theorem cleanUpCore_localStream (s : ClientState) :
    (cleanUpCore s).1.localStream = s.localStream := by
  simp only [cleanUpCore]
  rw [closeStep_localStream, stopEach_localStream, stopAudioAnalysis_localStream]

theorem cleanUpCore_sendTransport (s : ClientState) :
    (cleanUpCore s).1.sendTransport = s.sendTransport := by
  simp only [cleanUpCore]
  rw [closeStep_sendTransport, stopEach_sendTransport, stopAudioAnalysis_sendTransport]

theorem cleanUpCore_recvTransport (s : ClientState) :
    (cleanUpCore s).1.recvTransport = s.recvTransport := by
  simp only [cleanUpCore]
  rw [closeStep_recvTransport, stopEach_recvTransport, stopAudioAnalysis_recvTransport]

theorem cleanUp_analysisRefs (s : ClientState) :
    (cleanUp s).1.analysisRefs = [] := by
  show (cleanUpCore s).1.analysisRefs = []
  simp only [cleanUpCore]
  rw [closeStep_analysisRefs, stopEach_analysisRefs]
  exact eraseAll_eq_nil _ _ (fun e he => List.mem_map_of_mem Prod.fst he)

theorem cleanUp_ac (s : ClientState) :
    (cleanUp s).1.audioContextClosed = none ∨
    (cleanUp s).1.audioContextClosed = some true := by
  show (cleanUpCore s).1.audioContextClosed = none ∨
    (cleanUpCore s).1.audioContextClosed = some true
  simp only [cleanUpCore]
  exact closeStep_ac _

theorem cleanUp_fixed (x : ClientState)
    (h1 : x.analysisRefs = []) (h2 : x.speakingStates = [])
    (h3 : x.localStream = none) (h4 : x.sendTransport = none)
    (h5 : x.recvTransport = none) (h6 : x.callState = CallSt.idle)
    (h7 : x.incomingCallData = none) (h8 : x.remotePeers = [])
    (h9 : x.consumers = []) (h10 : x.messages = [])
    (h11 : x.currentRoomName = none) (h12 : x.deviceLoaded = false)
    (hac : x.audioContextClosed = none ∨ x.audioContextClosed = some true) :
    cleanUp x = (x, []) := by
  obtain ⟨cs, ic, ls, co, rp, sp, ms, ar, ac, st, rt, rn, dl, mi⟩ := x
  simp only at h1 h2 h3 h4 h5 h6 h7 h8 h9 h10 h11 h12 hac
  subst h1
  subst h2
  subst h3
  subst h4
  subst h5
  subst h6
  subst h7
  subst h8
  subst h9
  subst h10
  subst h11
  subst h12
  rcases hac with h | h
  · subst h
    rfl
  · subst h
    rfl

/-- C8: `cleanUp` is idempotent — a second invocation returns exactly the
state the first produced and performs no further effect — and after one
invocation the consumers, remote-peers, speaking-state and analysis maps
are empty, the local stream and both transport refs are cleared, and the
call state is idle; the first invocation stops every local track and closes
both transports (when they existed). -/
theorem cleanUp_idempotent (s : ClientState) :
    cleanUp (cleanUp s).1 = ((cleanUp s).1, []) ∧
    (cleanUp s).1.consumers = [] ∧
    (cleanUp s).1.remotePeers = [] ∧
    (cleanUp s).1.speakingStates = [] ∧
    (cleanUp s).1.analysisRefs = [] ∧
    (cleanUp s).1.localStream = none ∧
    (cleanUp s).1.sendTransport = none ∧
    (cleanUp s).1.recvTransport = none ∧
    (cleanUp s).1.callState = CallSt.idle ∧
    (∀ ts t, s.localStream = some ts → t ∈ ts →
      CEffect.stopTrack t.id ∈ (cleanUp s).2) ∧
    (∀ tid, s.sendTransport = some tid →
      CEffect.closeTransport tid ∈ (cleanUp s).2) ∧
    (∀ tid, s.recvTransport = some tid →
      CEffect.closeTransport tid ∈ (cleanUp s).2) := by
  refine ⟨?_, rfl, rfl, rfl, cleanUp_analysisRefs s, rfl, rfl, rfl, rfl, ?_, ?_, ?_⟩
  · exact cleanUp_fixed _ (cleanUp_analysisRefs s) rfl rfl rfl rfl rfl rfl rfl rfl rfl
      rfl rfl (cleanUp_ac s)
  · intro ts t hls ht
    have heq : (cleanUp s).2 = (cleanUpCore s).2
        ++ ((cleanUpCore s).1.localStream.getD []).map (fun t => CEffect.stopTrack t.id)
        ++ (match (cleanUpCore s).1.sendTransport with
            | some tid => [CEffect.closeTransport tid]
            | none => [])
        ++ (match (cleanUpCore s).1.recvTransport with
            | some tid => [CEffect.closeTransport tid]
            | none => []) := rfl
    rw [heq, cleanUpCore_localStream, hls]
    simp only [Option.getD_some, List.mem_append, List.mem_map]
    exact Or.inl (Or.inl (Or.inr ⟨t, ht, rfl⟩))
  · intro tid hst
    have heq : (cleanUp s).2 = (cleanUpCore s).2
        ++ ((cleanUpCore s).1.localStream.getD []).map (fun t => CEffect.stopTrack t.id)
        ++ (match (cleanUpCore s).1.sendTransport with
            | some tid => [CEffect.closeTransport tid]
            | none => [])
        ++ (match (cleanUpCore s).1.recvTransport with
            | some tid => [CEffect.closeTransport tid]
            | none => []) := rfl
    rw [heq, cleanUpCore_sendTransport, hst]
    simp
  · intro tid hrt
    have heq : (cleanUp s).2 = (cleanUpCore s).2
        ++ ((cleanUpCore s).1.localStream.getD []).map (fun t => CEffect.stopTrack t.id)
        ++ (match (cleanUpCore s).1.sendTransport with
            | some tid => [CEffect.closeTransport tid]
            | none => [])
        ++ (match (cleanUpCore s).1.recvTransport with
            | some tid => [CEffect.closeTransport tid]
            | none => []) := rfl
    rw [heq, cleanUpCore_recvTransport, hrt]
    simp

/-- Witness for C8: running `cleanUp` a second time on the in-call client's
cleaned state returns that state unchanged with no further effects. -/
theorem cleanUp_idempotent_witness :
    cleanUp (cleanUp inCallClient).1 = ((cleanUp inCallClient).1, []) :=
  (cleanUp_idempotent inCallClient).1

/-! ## Claim C7 -/

theorem tryPresetsAux_stop (env : GUMEnv) (i n : Nat) (e : String)
    (h : env.videoAttempt i = Except.error e) (hr : ¬ retryableName e = true) :
    tryPresetsAux env i (n + 1) = (none, some e, 1) := by
  unfold tryPresetsAux
  simp only [h]
  rw [if_neg hr]

theorem tryPresetsAux_advance (env : GUMEnv) :
    ∀ (n i j : Nat) (e : String), j + 1 < (tryPresetsAux env i n).2.2 →
      env.videoAttempt (i + j) = Except.error e → retryableName e = true := by
  intro n
  induction n with
  | zero =>
    intro i j e h hv
    simp [tryPresetsAux] at h
  | succ m ih =>
    intro i j e h hv
    unfold tryPresetsAux at h
    cases ha : env.videoAttempt i with
    | ok str =>
      simp only [ha] at h
      have h3 : j + 1 < 1 := h
      omega
    | error e0 =>
      simp only [ha] at h
      by_cases hr : retryableName e0 = true
      · rw [if_pos hr] at h
        cases j with
        | zero =>
          rw [Nat.add_zero] at hv
          rw [ha] at hv
          injection hv with hv
          subst hv
          exact hr
        | succ j2 =>
          have h3 : j2 + 1 + 1 < (tryPresetsAux env (i + 1) m).2.2 + 1 := h
          have h2 : j2 + 1 < (tryPresetsAux env (i + 1) m).2.2 := by omega
          have hv2 : env.videoAttempt (i + 1 + j2) = Except.error e := by
            rw [show i + 1 + j2 = i + (j2 + 1) by omega]
            exact hv
          exact ih (i + 1) j2 e h2 hv2
      · rw [if_neg hr] at h
        have h3 : j + 1 < 1 := h
        omega

theorem tryPresetsAux_none (env : GUMEnv) :
    ∀ (n i : Nat), (∀ j, j < n → ∃ e, env.videoAttempt (i + j) = Except.error e) →
      (tryPresetsAux env i n).1 = none := by
  intro n
  induction n with
  | zero => intro i h; rfl
  | succ m ih =>
    intro i h
    obtain ⟨e0, he0⟩ := h 0 (by omega)
    rw [Nat.add_zero] at he0
    unfold tryPresetsAux
    simp only [he0]
    by_cases hr : retryableName e0 = true
    · rw [if_pos hr]
      have h2 := ih (i + 1) (fun j hj => by
        have h3 := h (j + 1) (by omega)
        rwa [show i + (j + 1) = i + 1 + j by omega] at h3)
      exact h2
    · rw [if_neg hr]

/-- C7: media acquisition with video requested tries the presets in order,
advancing only past a retryable failure (`OverconstrainedError`,
`NotFoundError`, `NotReadableError`) and stopping the preset loop
immediately on any other error; when no preset yields a stream it falls
back to an audio-only request.  In particular, a camera denied with
`NotAllowedError` ends the preset loop after one attempt and — with a
working microphone — yields a successful audio-only result
(`videoEnabled = false`) carrying the live audio track rather than a
failure. -/
theorem media_fallback_audio_only (env : GUMEnv) (s : MStream) (t : Track)
    (hcam : env.videoAttempt 0 = Except.error "NotAllowedError")
    (haud : env.audioAttempt = Except.ok s)
    (ht : t ∈ s.tracks) (hk : t.kind = TKind.audio) :
    getMediaStream env true = Except.ok (s, false) ∧
    videoAttemptCount env = 1 ∧
    retryableName "NotAllowedError" = false ∧
    (∃ t2 ∈ s.tracks, t2.kind = TKind.audio) ∧
    (∀ (env2 : GUMEnv) (j : Nat) (e : String),
      j + 1 < videoAttemptCount env2 → env2.videoAttempt j = Except.error e →
      retryableName e = true) ∧
    (∀ (env2 : GUMEnv) (s2 : MStream),
      (∀ j, j < numPresets → ∃ e, env2.videoAttempt j = Except.error e) →
      env2.audioAttempt = Except.ok s2 →
      getMediaStream env2 true = Except.ok (s2, false)) := by
  have h1 : tryPresetsAux env 0 numPresets = (none, some "NotAllowedError", 1) :=
    tryPresetsAux_stop env 0 3 "NotAllowedError" hcam (by decide)
  refine ⟨?_, ?_, by decide, ⟨t, ht, hk⟩, ?_, ?_⟩
  · simp [getMediaStream, h1, haud]
  · simp [videoAttemptCount, h1]
  · intro env2 j e h hv
    refine tryPresetsAux_advance env2 numPresets 0 j e h ?_
    rw [Nat.zero_add]
    exact hv
  · intro env2 s2 hall haud2
    have h2 : (tryPresetsAux env2 0 numPresets).1 = none :=
      tryPresetsAux_none env2 numPresets 0 (fun j hj => by
        have h3 := hall j hj
        rwa [Nat.zero_add])
    rcases htup : tryPresetsAux env2 0 numPresets with ⟨o, le, cnt⟩
    rw [htup] at h2
    subst h2
    simp [getMediaStream, htup, haud2]

/-- Witness for C7: in the denied-camera environment (every camera request
fails with `NotAllowedError`, microphone available) the call gets an
audio-only stream with `videoEnabled = false`. -/
theorem media_fallback_audio_only_witness :
    getMediaStream deniedCameraEnv true =
      Except.ok (⟨[⟨"mic", TKind.audio⟩]⟩, false) :=
  (media_fallback_audio_only deniedCameraEnv ⟨[⟨"mic", TKind.audio⟩]⟩
    ⟨"mic", TKind.audio⟩ rfl rfl (by simp) rfl).1

end RuGram
